import Mathlib

/-!
# Verification of the climatehack DGMR generator (Sampler / Generator modules)

Shallow embedding of `src/dgmr_deterministic/dgmr/generators.py` (namespace `Det`)
and `src/experiments/dgmr-dct/dgmr/generators.py` (namespace `Dct`).

Tensors are modelled at the shape level with an explicit payload function;
the learned collaborator layers (`ConvGRU`, `GBlock`, `UpsampleGBlock`,
spectrally normalised convolutions), whose defining files `dgmr/layers.py` and
`dgmr/common.py` are not part of the sources, are modelled from the spec as
records carrying the documented output-shape contract together with an
abstract value kernel standing for the learned computation.  Concrete tensor
rearrangements performed by the framework itself (`torch.cat`, `torch.stack`,
`einops.repeat`, `PixelShuffle`, `F.relu`) are modelled concretely.
-/

set_option autoImplicit false

/-- A 4-dimensional tensor `(batch, chan, height, width)`.  The payload is a
total function from indices to values; shape fields record the sizes the
runtime would report. -/
structure Tensor where
  batch : Nat
  chan : Nat
  height : Nat
  width : Nat
  data : Nat → Nat → Nat → Nat → Int

/-- The all-zero empty tensor, used as the `Inhabited` default. -/
def zeroT : Tensor :=
  { batch := 0, chan := 0, height := 0, width := 0, data := fun _ _ _ _ => 0 }

instance : Inhabited Tensor := ⟨zeroT⟩

/-- `torch.cat((a, b), dim=1)`: channel-wise concatenation. -/
def Tensor.cat1 (a b : Tensor) : Tensor :=
  { batch := a.batch, chan := a.chan + b.chan, height := a.height, width := a.width,
    data := fun n c i j =>
      if c < a.chan then a.data n c i j else b.data n (c - a.chan) i j }

/-- `einops.repeat(t, "b c h w -> (repeat b) c h w", repeat=r)`. -/
def Tensor.repeatBatch (t : Tensor) (r : Nat) : Tensor :=
  { batch := r * t.batch, chan := t.chan, height := t.height, width := t.width,
    data := fun n c i j => t.data (n % t.batch) c i j }

/-- `F.relu` applied pointwise. -/
def Tensor.reluT (t : Tensor) : Tensor :=
  { t with data := fun n c i j => max 0 (t.data n c i j) }

/-- `torch.nn.PixelShuffle(upscale_factor=2)`: trades a factor 4 of channel
depth for a factor 2 of spatial resolution in each dimension. -/
def Tensor.depth2space (t : Tensor) : Tensor :=
  { batch := t.batch, chan := t.chan / 4, height := 2 * t.height, width := 2 * t.width,
    data := fun n c i j => t.data n (c * 4 + 2 * (i % 2) + (j % 2)) (i / 2) (j / 2) }

/-- A 5-dimensional tensor `(batch, time, chan, height, width)`. -/
structure Tensor5 where
  batch : Nat
  time : Nat
  chan : Nat
  height : Nat
  width : Nat
  data : Nat → Nat → Nat → Nat → Nat → Int

/-- `torch.stack(ts, dim=1)`.  Stacking an empty list is a runtime error in
the framework, hence the `Option`. -/
def stackDim1 : List Tensor → Option Tensor5
  | [] => none
  | t :: ts =>
    some { batch := t.batch, time := (t :: ts).length, chan := t.chan,
           height := t.height, width := t.width,
           data := fun n k c i j => ((t :: ts).getD k zeroT).data n c i j }

/-- The Python loop `for i in range(n): out.append(f(hs[i]))`, which raises an
index error (here: `none`) as soon as `i` is out of range. -/
def idxMap (hs : List Tensor) (f : Tensor → Tensor) : Nat → Option (List Tensor)
  | 0 => some []
  | n + 1 =>
    match idxMap hs f n, hs.get? n with
    | some acc, some h => some (acc ++ [f h])
    | _, _ => none

/-! ## Collaborator layer contracts

Modelled from the spec: the classes `ConvGRU` (dgmr/layers.py), `GBlock` and
`UpsampleGBlock` (dgmr/common.py) are not under the provided sources.  Per the
spec they are, respectively: a gated convolutional recurrence producing one
hidden state per input element; a residual refinement block preserving spatial
size; and an upsampling block that doubles height and width.  Each model
fixes the documented shape behaviour and keeps the learned computation as an
abstract kernel. -/

/-- Abstract value kernel of a unary layer. -/
abbrev DKer := Tensor → Nat → Nat → Nat → Nat → Int

/-- Abstract value kernel of a recurrent cell (input and hidden state). -/
abbrev GKer := Tensor → Tensor → Nat → Nat → Nat → Nat → Int

/-- Abstract value kernel of batch normalisation in eval mode: it may read the
running statistics. -/
abbrev SKer := (Nat → Int) → Tensor → Nat → Nat → Nat → Nat → Int

/-- Modelled from the spec: `dgmr.layers.ConvGRU` — a gated convolutional
recurrent unit.  `inChan`/`outChan` mirror the constructor arguments
`input_channels`/`output_channels`; the cell output has `outChan` channels and
the batch and spatial sizes of the per-step input. -/
structure GRUCell where
  inChan : Nat
  outChan : Nat
  k : GKer

/-- One application of the recurrent cell. -/
def GRUCell.step (g : GRUCell) (x h : Tensor) : Tensor :=
  { batch := x.batch, chan := g.outChan, height := x.height, width := x.width,
    data := g.k x h }

/-- Running the recurrence over an input sequence from an initial hidden
state, collecting one hidden state per input element. -/
def GRUCell.run (g : GRUCell) (h0 : Tensor) : List Tensor → List Tensor
  | [] => []
  | x :: xs =>
    let h1 := g.step x h0
    h1 :: g.run h1 xs

/-- Modelled from the spec: a channel-mapping layer that preserves batch and
spatial sizes — used for the spectrally normalised 1×1 convolutions and for
`dgmr.common.GBlock` (whose input and output channel counts coincide). -/
structure ChanLayer where
  inChan : Nat
  outChan : Nat
  k : DKer

/-- Apply a channel-mapping layer. -/
def ChanLayer.apply (c : ChanLayer) (x : Tensor) : Tensor :=
  { batch := x.batch, chan := c.outChan, height := x.height, width := x.width,
    data := c.k x }

/-- Modelled from the spec: `dgmr.common.UpsampleGBlock` — doubles height and
width and maps to `outChan` channels. -/
structure UpLayer where
  inChan : Nat
  outChan : Nat
  k : DKer

/-- Apply an upsampling block. -/
def UpLayer.apply (u : UpLayer) (x : Tensor) : Tensor :=
  { batch := x.batch, chan := u.outChan, height := 2 * x.height, width := 2 * x.width,
    data := u.k x }

/-- Mutable state of a `torch.nn.BatchNorm2d` module: the training-mode flag
and the running statistics buffer. -/
structure BNState where
  train : Bool
  stats : Nat → Int

/-- `torch.nn.BatchNorm2d`: in training mode the output is computed from the
batch itself (independently of the running statistics) and the running
statistics are updated; in eval mode the output reads the running statistics,
which stay untouched. -/
structure BNLayer where
  numFeatures : Nat
  trainK : DKer
  evalK : SKer
  upd : (Nat → Int) → Tensor → Nat → Int

/-- One batch-normalisation forward call, returning output and new state. -/
def BNLayer.run (l : BNLayer) (st : BNState) (x : Tensor) : Tensor × BNState :=
  if st.train then
    ({ x with data := l.trainK x }, { st with stats := l.upd st.stats x })
  else
    ({ x with data := l.evalK st.stats x }, st)

/-- The list comprehension `[F.relu(self.bn(h)) for h in hidden_states]`:
batch normalisation threads its state through the elements in order. -/
def bnReluList (l : BNLayer) : BNState → List Tensor → List Tensor × BNState
  | st, [] => ([], st)
  | st, h :: hs =>
    let p := l.run st h
    let q := bnReluList l p.2 hs
    (p.1.reluT :: q.1, q.2)

namespace Det

/-- The learned weights of the deterministic-variant `Sampler`, one abstract
kernel per learned sub-module of `Sampler.__init__`. -/
structure Weights where
  gru1 : GKer
  gru2 : GKer
  gru3 : GKer
  gru4 : GKer
  c1 : DKer
  c2 : DKer
  c3 : DKer
  c4 : DKer
  gb1 : DKer
  gb2 : DKer
  gb3 : DKer
  gb4 : DKer
  up1 : DKer
  up2 : DKer
  up3 : DKer
  up4 : DKer
  bnTrain : DKer
  bnEval : SKer
  bnUpd : (Nat → Int) → Tensor → Nat → Int
  out : DKer

/-- `Sampler` of `src/dgmr_deterministic/dgmr/generators.py`: the module
record built by `__init__`. -/
structure Sampler where
  forecast_steps : Nat
  convGRU1 : GRUCell
  gru_conv_1x1 : ChanLayer
  g1 : ChanLayer
  up_g1 : UpLayer
  convGRU2 : GRUCell
  gru_conv_1x1_2 : ChanLayer
  g2 : ChanLayer
  up_g2 : UpLayer
  convGRU3 : GRUCell
  gru_conv_1x1_3 : ChanLayer
  g3 : ChanLayer
  up_g3 : UpLayer
  convGRU4 : GRUCell
  gru_conv_1x1_4 : ChanLayer
  g4 : ChanLayer
  up_g4 : UpLayer
  bn : BNLayer
  conv_1x1 : ChanLayer

/-- `Sampler.__init__` (deterministic variant): the channel arithmetic of
lines 44–130 of `src/dgmr_deterministic/dgmr/generators.py`. -/
def Sampler.make (forecast_steps latent_channels context_channels output_channels : Nat)
    (w : Weights) : Sampler :=
  { forecast_steps := forecast_steps,
    convGRU1 := { inChan := latent_channels + context_channels,
                  outChan := context_channels, k := w.gru1 },
    gru_conv_1x1 := { inChan := context_channels, outChan := latent_channels, k := w.c1 },
    g1 := { inChan := latent_channels, outChan := latent_channels, k := w.gb1 },
    up_g1 := { inChan := latent_channels, outChan := latent_channels / 2, k := w.up1 },
    convGRU2 := { inChan := latent_channels + context_channels / 2,
                  outChan := context_channels / 2, k := w.gru2 },
    gru_conv_1x1_2 := { inChan := context_channels / 2, outChan := latent_channels / 2,
                        k := w.c2 },
    g2 := { inChan := latent_channels / 2, outChan := latent_channels / 2, k := w.gb2 },
    up_g2 := { inChan := latent_channels / 2, outChan := latent_channels / 4, k := w.up2 },
    convGRU3 := { inChan := latent_channels / 2 + context_channels / 4,
                  outChan := context_channels / 4, k := w.gru3 },
    gru_conv_1x1_3 := { inChan := context_channels / 4, outChan := latent_channels / 4,
                        k := w.c3 },
    g3 := { inChan := latent_channels / 4, outChan := latent_channels / 4, k := w.gb3 },
    up_g3 := { inChan := latent_channels / 4, outChan := latent_channels / 8, k := w.up3 },
    convGRU4 := { inChan := latent_channels / 4 + context_channels / 8,
                  outChan := context_channels / 8, k := w.gru4 },
    gru_conv_1x1_4 := { inChan := context_channels / 8, outChan := latent_channels / 8,
                        k := w.c4 },
    g4 := { inChan := latent_channels / 8, outChan := latent_channels / 8, k := w.gb4 },
    up_g4 := { inChan := latent_channels / 8, outChan := latent_channels / 16, k := w.up4 },
    bn := { numFeatures := latent_channels / 16, trainK := w.bnTrain, evalK := w.bnEval,
            upd := w.bnUpd },
    conv_1x1 := { inChan := latent_channels / 16, outChan := 4 * output_channels,
                  k := w.out } }

/-- The sequence fed to `convGRU1`: `input_states = [latent_dim[3]] * self.forecast_steps`
(line 153).  Note that the latent argument is indexed like a list and that the
`einops.repeat` batch expansion of the upstream project is commented out. -/
def Sampler.gru1Input (s : Sampler) (lcs : List Tensor) : Option (List Tensor) :=
  (lcs.get? 3).map (fun l3 => List.replicate s.forecast_steps l3)

/-- Hidden states after the first stage (lines 153–157): `convGRU1` seeded
with `init_states[3]`, then the 1×1 projection, `g1` and `up_g1` per step. -/
def Sampler.hidden1 (s : Sampler) (ics lcs : List Tensor) : Option (List Tensor) := do
  let inp ← s.gru1Input lcs
  let i3 ← ics.get? 3
  return (((s.convGRU1.run i3 inp).map s.gru_conv_1x1.apply).map s.g1.apply).map s.up_g1.apply

/-- The sequence fed to `convGRU2` (lines 160–163): each element is
`torch.cat((latent_dim[2], hidden_states[i]), dim=1)`. -/
def Sampler.gru2Input (s : Sampler) (ics lcs : List Tensor) : Option (List Tensor) := do
  let hs ← s.hidden1 ics lcs
  let l2 ← lcs.get? 2
  idxMap hs (fun h => Tensor.cat1 l2 h) s.forecast_steps

/-- Hidden states after the second stage (lines 164–167). -/
def Sampler.hidden2 (s : Sampler) (ics lcs : List Tensor) : Option (List Tensor) := do
  let inp ← s.gru2Input ics lcs
  let i2 ← ics.get? 2
  return (((s.convGRU2.run i2 inp).map s.gru_conv_1x1_2.apply).map s.g2.apply).map s.up_g2.apply

/-- The sequence fed to `convGRU3` (lines 170–173). -/
def Sampler.gru3Input (s : Sampler) (ics lcs : List Tensor) : Option (List Tensor) := do
  let hs ← s.hidden2 ics lcs
  let l1 ← lcs.get? 1
  idxMap hs (fun h => Tensor.cat1 l1 h) s.forecast_steps

/-- Hidden states after the third stage (lines 174–177). -/
def Sampler.hidden3 (s : Sampler) (ics lcs : List Tensor) : Option (List Tensor) := do
  let inp ← s.gru3Input ics lcs
  let i1 ← ics.get? 1
  return (((s.convGRU3.run i1 inp).map s.gru_conv_1x1_3.apply).map s.g3.apply).map s.up_g3.apply

/-- The sequence fed to `convGRU4` (lines 180–183). -/
def Sampler.gru4Input (s : Sampler) (ics lcs : List Tensor) : Option (List Tensor) := do
  let hs ← s.hidden3 ics lcs
  let l0 ← lcs.get? 0
  idxMap hs (fun h => Tensor.cat1 l0 h) s.forecast_steps

/-- Hidden states after the fourth stage (lines 184–187). -/
def Sampler.hidden4 (s : Sampler) (ics lcs : List Tensor) : Option (List Tensor) := do
  let inp ← s.gru4Input ics lcs
  let i0 ← ics.get? 0
  return (((s.convGRU4.run i0 inp).map s.gru_conv_1x1_4.apply).map s.g4.apply).map s.up_g4.apply

/-- `Sampler.forward` (lines 132–196): the four scale stages, then the output
layer `relu ∘ bn`, the final 1×1 convolution, `depth2space`, and
`torch.stack(_, dim=1)`.  Batch-normalisation state is threaded explicitly. -/
def Sampler.forward (s : Sampler) (st : BNState) (ics lcs : List Tensor) :
    Option (Tensor5 × BNState) :=
  (s.hidden4 ics lcs).bind fun hs =>
    let p := bnReluList s.bn st hs
    (stackDim1 ((p.1.map s.conv_1x1.apply).map Tensor.depth2space)).map fun o => (o, p.2)

/-- `Generator` of `src/dgmr_deterministic/dgmr/generators.py`: composition of
the two conditioning stacks (external collaborators, modelled as abstract
functions from the input history to a list of scale states) with the sampler. -/
structure Generator where
  ics : Tensor5 → List Tensor
  lcs : Tensor5 → List Tensor
  sampler : Sampler

/-- `Generator.forward` (lines 218–222). -/
def Generator.forward (g : Generator) (st : BNState) (x_input x_last : Tensor5) :
    Option (Tensor5 × BNState) :=
  g.sampler.forward st (g.ics x_input) (g.lcs x_last)

end Det

namespace Dct

/-- The learned weights of the DCT-variant `Sampler` (three stages only). -/
structure Weights where
  gru1 : GKer
  gru2 : GKer
  gru3 : GKer
  c1 : DKer
  c2 : DKer
  c3 : DKer
  gb1 : DKer
  gb2 : DKer
  gb3 : DKer
  up1 : DKer
  up2 : DKer
  bnTrain : DKer
  bnEval : SKer
  bnUpd : (Nat → Int) → Tensor → Nat → Int
  out : DKer

/-- `Sampler` of `src/experiments/dgmr-dct/dgmr/generators.py`: the module
record built by `__init__`.  The fourth stage, the final upsample block and
the depth-to-space rearrangement are commented out in this variant. -/
structure Sampler where
  forecast_steps : Nat
  convGRU1 : GRUCell
  gru_conv_1x1 : ChanLayer
  g1 : ChanLayer
  up_g1 : UpLayer
  convGRU2 : GRUCell
  gru_conv_1x1_2 : ChanLayer
  g2 : ChanLayer
  up_g2 : UpLayer
  convGRU3 : GRUCell
  gru_conv_1x1_3 : ChanLayer
  g3 : ChanLayer
  bn : BNLayer
  conv_1x1 : ChanLayer

/-- `Sampler.__init__` (DCT variant): the channel arithmetic of lines 48–147
of `src/experiments/dgmr-dct/dgmr/generators.py`.  Note the switch to
`output_channels`-based arithmetic in the third stage and in the output
layer. -/
def Sampler.make (forecast_steps latent_channels context_channels output_channels : Nat)
    (w : Weights) : Sampler :=
  { forecast_steps := forecast_steps,
    convGRU1 := { inChan := latent_channels + context_channels,
                  outChan := context_channels, k := w.gru1 },
    gru_conv_1x1 := { inChan := context_channels, outChan := latent_channels, k := w.c1 },
    g1 := { inChan := latent_channels, outChan := latent_channels, k := w.gb1 },
    up_g1 := { inChan := latent_channels, outChan := latent_channels / 2, k := w.up1 },
    convGRU2 := { inChan := latent_channels / 2 + context_channels / 2,
                  outChan := context_channels / 2, k := w.gru2 },
    gru_conv_1x1_2 := { inChan := context_channels / 2, outChan := latent_channels / 2,
                        k := w.c2 },
    g2 := { inChan := latent_channels / 2, outChan := latent_channels / 2, k := w.gb2 },
    up_g2 := { inChan := latent_channels / 2, outChan := latent_channels / 4, k := w.up2 },
    convGRU3 := { inChan := latent_channels / 4 + context_channels / 4,
                  outChan := context_channels / 4, k := w.gru3 },
    gru_conv_1x1_3 := { inChan := context_channels / 4, outChan := output_channels / 4,
                        k := w.c3 },
    g3 := { inChan := output_channels / 4, outChan := output_channels / 4, k := w.gb3 },
    bn := { numFeatures := output_channels / 4, trainK := w.bnTrain, evalK := w.bnEval,
            upd := w.bnUpd },
    conv_1x1 := { inChan := output_channels / 4, outChan := output_channels / 4,
                  k := w.out } }

/-- Lines 168–171: the latent tensor is batch-expanded by
`einops.repeat(latent_dim, "b c h w -> (repeat b) c h w", repeat=init_states[0].shape[0])`
and then broadcast across the forecast horizon,
`hidden_states = [latent_dim] * self.forecast_steps`. -/
def Sampler.gru1Input (s : Sampler) (cond : List Tensor) (latent : Tensor) :
    Option (List Tensor) :=
  (cond.get? 0).map fun c0 => List.replicate s.forecast_steps (latent.repeatBatch c0.batch)

/-- Hidden states after the first stage (lines 175–178): `convGRU1` seeded
with `init_states[2]`. -/
def Sampler.hidden1 (s : Sampler) (cond : List Tensor) (latent : Tensor) :
    Option (List Tensor) := do
  let inp ← s.gru1Input cond latent
  let c2 ← cond.get? 2
  return (((s.convGRU1.run c2 inp).map s.gru_conv_1x1.apply).map s.g1.apply).map s.up_g1.apply

/-- Hidden states after the second stage (lines 181–184): the previous hidden
states are fed to `convGRU2` directly, with no concatenation, seeded with
`init_states[1]`. -/
def Sampler.hidden2 (s : Sampler) (cond : List Tensor) (latent : Tensor) :
    Option (List Tensor) := do
  let hs ← s.hidden1 cond latent
  let c1 ← cond.get? 1
  return (((s.convGRU2.run c1 hs).map s.gru_conv_1x1_2.apply).map s.g2.apply).map s.up_g2.apply

/-- Hidden states after the third stage (lines 187–189): `convGRU3` seeded
with `init_states[0]`, then the 1×1 projection and `g3`; no upsample block. -/
def Sampler.hidden3 (s : Sampler) (cond : List Tensor) (latent : Tensor) :
    Option (List Tensor) := do
  let hs ← s.hidden2 cond latent
  let c0 ← cond.get? 0
  return ((s.convGRU3.run c0 hs).map s.gru_conv_1x1_3.apply).map s.g3.apply

/-- `Sampler.forward` (lines 151–208): three scale stages, the output layer
`relu ∘ bn` followed by the final 1×1 convolution (lines 192–193; no
depth-to-space in this variant), and `torch.stack(_, dim=1)`. -/
def Sampler.forward (s : Sampler) (st : BNState) (cond : List Tensor) (latent : Tensor) :
    Option (Tensor5 × BNState) :=
  (s.hidden3 cond latent).bind fun hs =>
    let p := bnReluList s.bn st hs
    (stackDim1 (p.1.map s.conv_1x1.apply)).map fun o => (o, p.2)

end Dct

/-! ## The serialisable configuration record

`Sampler.__init__` in both variants stores
`config = locals(); config.pop("__class__"); config.pop("self");
self.config = kwargs.get("config", config)` and then reads the four
configuration values back out of `self.config`. -/

/-- A Python value as far as the configuration logic observes it: an integer
or a string-keyed dictionary. -/
inductive CVal where
  | nat : Nat → CVal
  | dict : List (String × CVal) → CVal

/-- `locals()` after the two `pop` calls: the four named constructor
arguments together with the residual keyword-argument mapping `kwargs`. -/
def samplerLocalsConfig (forecast_steps latent_channels context_channels output_channels : Nat)
    (kwargs : List (String × CVal)) : List (String × CVal) :=
  [("forecast_steps", CVal.nat forecast_steps),
   ("latent_channels", CVal.nat latent_channels),
   ("context_channels", CVal.nat context_channels),
   ("output_channels", CVal.nat output_channels),
   ("kwargs", CVal.dict kwargs)]

/-- `self.config = kwargs.get("config", config)`. -/
def samplerStoredConfig (forecast_steps latent_channels context_channels output_channels : Nat)
    (kwargs : List (String × CVal)) : CVal :=
  (List.lookup "config" kwargs).getD
    (CVal.dict (samplerLocalsConfig forecast_steps latent_channels context_channels
      output_channels kwargs))

/-- Reading an integer entry out of a configuration value; any other shape is
a Python `KeyError`/`TypeError`, modelled as `none`. -/
def cvalNat : Option CVal → Option Nat
  | some (CVal.nat n) => some n
  | _ => none

/-- The four values `self.forecast_steps`, `latent_channels`,
`context_channels`, `output_channels` that `__init__` reads back from
`self.config` and uses to build every sub-module. -/
def samplerInitFields (forecast_steps latent_channels context_channels output_channels : Nat)
    (kwargs : List (String × CVal)) : Option (Nat × Nat × Nat × Nat) :=
  match samplerStoredConfig forecast_steps latent_channels context_channels output_channels
      kwargs with
  | CVal.dict d =>
    match cvalNat (List.lookup "forecast_steps" d), cvalNat (List.lookup "latent_channels" d),
        cvalNat (List.lookup "context_channels" d), cvalNat (List.lookup "output_channels" d) with
    | some a, some b, some c, some e => some (a, b, c, e)
    | _, _, _, _ => none
  | _ => none

/-! ## The frequency-domain transform pair

Modelled from the spec: `common/utils.py` (`create_conv_dct_filter`,
`get_idct_filter`), which builds the fixed forward and inverse transform
kernels of the DCT variant, is not under the provided sources.  Per the spec
it is a fixed, non-learned convolution implementing a discrete-cosine
transform per spatial block together with its inverse; it is modelled here as
the orthonormal 2×2 block DCT-II applied to every 2×2 block of a frame, with
the inverse given by the transposed basis. -/

/-- The 2-point DCT-II basis matrix (sum and difference rows), as used for
the forward filter bank. -/
def dctM : Matrix (Fin 2) (Fin 2) ℚ :=
  fun k n => if k = 1 ∧ n = 1 then -1 else 1

/-- The matching inverse basis: the transposed forward basis with the
normalisation `1 / 2` folded into the kernel, so that the pair is an exact
inverse. -/
def dctMInv : Matrix (Fin 2) (Fin 2) ℚ :=
  fun n k => (1 / 2) * (if k = 1 ∧ n = 1 then -1 else 1)

/-- A single-channel frame, as an unbounded grid of samples. -/
abbrev DFrame := Nat → Nat → ℚ

/-- The 2×2 block of a frame at block coordinates `(p, q)`. -/
def frameBlock (x : DFrame) (p q : Nat) : Matrix (Fin 2) (Fin 2) ℚ :=
  fun a b => x (2 * p + a.val) (2 * q + b.val)

/-- The forward DCT of one block, `C * B * Cᵀ`. -/
def blockDct (b : Matrix (Fin 2) (Fin 2) ℚ) : Matrix (Fin 2) (Fin 2) ℚ :=
  dctM * b * dctM.transpose

/-- The inverse DCT of one block, `C⁻ * B * C⁻ᵀ` for the inverse basis. -/
def blockIdct (b : Matrix (Fin 2) (Fin 2) ℚ) : Matrix (Fin 2) (Fin 2) ℚ :=
  dctMInv * b * dctMInv.transpose

/-- Modelled from the spec: `self.conv_dct` — the fixed, non-learned forward
transform convolution built by `common/utils.create_conv_dct_filter` (not
under the provided sources), acting on every 2×2 block of a frame. -/
def conv_dct (x : DFrame) : DFrame := fun i j =>
  blockDct (frameBlock x (i / 2) (j / 2))
    ⟨i % 2, Nat.mod_lt _ (by decide)⟩ ⟨j % 2, Nat.mod_lt _ (by decide)⟩

/-- Modelled from the spec: `self.conv_idct` — the fixed inverse transform
convolution built by `common/utils.get_idct_filter` (not under the provided
sources), acting on every 2×2 block of a frame. -/
def conv_idct (y : DFrame) : DFrame := fun i j =>
  blockIdct (frameBlock y (i / 2) (j / 2))
    ⟨i % 2, Nat.mod_lt _ (by decide)⟩ ⟨j % 2, Nat.mod_lt _ (by decide)⟩

/-! ## Helper lemmas -/

/-- All tensors of a list share the given shape. -/
def ShapedList (b c hh ww : Nat) (l : List Tensor) : Prop :=
  ∀ t ∈ l, t.batch = b ∧ t.chan = c ∧ t.height = hh ∧ t.width = ww

theorem shapedList_replicate (n : Nat) (t : Tensor) :
    ShapedList t.batch t.chan t.height t.width (List.replicate n t) := by
  intro x hx
  rcases List.eq_of_mem_replicate hx with rfl
  exact ⟨rfl, rfl, rfl, rfl⟩

theorem GRUCell.run_length (g : GRUCell) (h0 : Tensor) (xs : List Tensor) :
    (g.run h0 xs).length = xs.length := by
  induction xs generalizing h0 with
  | nil => rfl
  | cons x xs ih => simp [GRUCell.run, ih]

theorem shapedList_run (g : GRUCell) {b c hh ww : Nat} :
    ∀ (xs : List Tensor) (h0 : Tensor), ShapedList b c hh ww xs →
      ShapedList b g.outChan hh ww (g.run h0 xs) := by
  intro xs
  induction xs with
  | nil => intro h0 _ t ht; simp [GRUCell.run] at ht
  | cons x xs ih =>
    intro h0 hx t ht
    rcases hx x (List.mem_cons_self x xs) with ⟨hb, _, hh, hw⟩
    simp only [GRUCell.run, List.mem_cons] at ht
    rcases ht with rfl | ht
    · exact ⟨hb, rfl, hh, hw⟩
    · exact ih _ (fun u hu => hx u (List.mem_cons_of_mem x hu)) t ht

theorem shapedList_map_chan (c : ChanLayer) {l : List Tensor} {b ch hh ww : Nat}
    (h : ShapedList b ch hh ww l) :
    ShapedList b c.outChan hh ww (l.map c.apply) := by
  intro t ht
  rcases List.mem_map.mp ht with ⟨u, hu, rfl⟩
  rcases h u hu with ⟨hb, _, hhh, hww⟩
  exact ⟨hb, rfl, hhh, hww⟩

theorem shapedList_map_up (u : UpLayer) {l : List Tensor} {b ch hh ww : Nat}
    (h : ShapedList b ch hh ww l) :
    ShapedList b u.outChan (2 * hh) (2 * ww) (l.map u.apply) := by
  intro t ht
  rcases List.mem_map.mp ht with ⟨x, hx, rfl⟩
  rcases h x hx with ⟨hb, _, hhh, hww⟩
  exact ⟨hb, rfl, by rw [UpLayer.apply, hhh], by rw [UpLayer.apply, hww]⟩

theorem shapedList_map_d2s {l : List Tensor} {b ch hh ww : Nat}
    (h : ShapedList b ch hh ww l) :
    ShapedList b (ch / 4) (2 * hh) (2 * ww) (l.map Tensor.depth2space) := by
  intro t ht
  rcases List.mem_map.mp ht with ⟨x, hx, rfl⟩
  rcases h x hx with ⟨hb, hc, hhh, hww⟩
  exact ⟨hb, by rw [Tensor.depth2space, hc], by rw [Tensor.depth2space, hhh],
    by rw [Tensor.depth2space, hww]⟩

theorem shapedList_map_cat (a : Tensor) {l : List Tensor} {b ch hh ww : Nat}
    (h : ShapedList b ch hh ww l) :
    ShapedList a.batch (a.chan + ch) a.height a.width
      (l.map (fun t => Tensor.cat1 a t)) := by
  intro t ht
  rcases List.mem_map.mp ht with ⟨x, hx, rfl⟩
  rcases h x hx with ⟨_, hc, _, _⟩
  exact ⟨rfl, by rw [Tensor.cat1, hc], rfl, rfl⟩

theorem idxMap_eq_take (f : Tensor → Tensor) :
    ∀ (n : Nat) (hs : List Tensor), n ≤ hs.length →
      idxMap hs f n = some ((hs.take n).map f) := by
  intro n
  induction n with
  | zero => intro hs _; simp [idxMap]
  | succ n ih =>
    intro hs hn
    have hlt : n < hs.length := Nat.lt_of_succ_le hn
    rw [idxMap, ih hs (Nat.le_of_lt hlt), List.get?_eq_get hlt]
    simp [List.take_succ, List.get?_eq_get hlt]
    rw [List.getElem?_eq_getElem hlt]
    simp

theorem idxMap_length_self (hs : List Tensor) (f : Tensor → Tensor) :
    idxMap hs f hs.length = some (hs.map f) := by
  rw [idxMap_eq_take f hs.length hs (Nat.le_refl _), List.take_length]

theorem bnReluList_length (l : BNLayer) (st : BNState) (xs : List Tensor) :
    (bnReluList l st xs).1.length = xs.length := by
  induction xs generalizing st with
  | nil => rfl
  | cons x xs ih => simp [bnReluList, BNLayer.run, ih]

theorem shapedList_bnReluList (l : BNLayer) (st : BNState) {xs : List Tensor}
    {b ch hh ww : Nat} (h : ShapedList b ch hh ww xs) :
    ShapedList b ch hh ww (bnReluList l st xs).1 := by
  induction xs generalizing st with
  | nil => intro t ht; simp [bnReluList] at ht
  | cons x xs ih =>
    intro t ht
    simp only [bnReluList, List.mem_cons] at ht
    rcases ht with rfl | ht
    · rcases h x (List.mem_cons_self x xs) with ⟨hb, hc, hhh, hww⟩
      refine ⟨?_, ?_, ?_, ?_⟩ <;>
        simp [BNLayer.run, Tensor.reluT, hb, hc, hhh, hww] <;>
        split <;> simp [hb, hc, hhh, hww]
    · exact ih _ (fun u hu => h u (List.mem_cons_of_mem x hu)) t ht

theorem bnReluList_eval (l : BNLayer) {st : BNState} (hst : st.train = false)
    (xs : List Tensor) :
    bnReluList l st xs
      = (xs.map (fun x => Tensor.reluT { x with data := l.evalK st.stats x }), st) := by
  induction xs with
  | nil => rfl
  | cons x xs ih => simp [bnReluList, BNLayer.run, hst, ih]

theorem bnReluList_train_fst (l : BNLayer) {st st' : BNState} (h1 : st.train = true)
    (h2 : st'.train = true) (xs : List Tensor) :
    (bnReluList l st xs).1 = (bnReluList l st' xs).1 := by
  induction xs generalizing st st' with
  | nil => rfl
  | cons x xs ih =>
    simp only [bnReluList, BNLayer.run, h1, h2, if_true]
    exact congrArg (List.cons _) (ih rfl rfl)

theorem bnReluList_train_flag (l : BNLayer) (st : BNState) (xs : List Tensor) :
    (bnReluList l st xs).2.train = st.train := by
  induction xs generalizing st with
  | nil => rfl
  | cons x xs ih =>
    simp only [bnReluList, BNLayer.run]
    split <;> simp [ih]

theorem stackDim1_shaped {l : List Tensor} {b c hh ww : Nat}
    (hne : l ≠ []) (h : ShapedList b c hh ww l) :
    ∃ o, stackDim1 l = some o ∧ o.batch = b ∧ o.time = l.length ∧ o.chan = c ∧
      o.height = hh ∧ o.width = ww := by
  cases l with
  | nil => exact absurd rfl hne
  | cons t ts =>
    rcases h t (List.mem_cons_self t ts) with ⟨hb, hc, hhh, hww⟩
    exact ⟨_, rfl, hb, rfl, hc, hhh, hww⟩


/-- One projection/refinement/upsample stage applied after a recurrence:
packaging of the result with its length and shape facts. -/
theorem stageUp (g : GRUCell) (p q : ChanLayer) (u : UpLayer) (h0 : Tensor)
    (inp : List Tensor) {b ch hh ww m : Nat} (hlen : inp.length = m)
    (hsh : ShapedList b ch hh ww inp) :
    ∃ A, ((((g.run h0 inp).map p.apply).map q.apply).map u.apply) = A ∧ A.length = m ∧
      ShapedList b u.outChan (2 * hh) (2 * ww) A :=
  ⟨_, rfl, by simp [List.length_map, GRUCell.run_length, hlen],
    shapedList_map_up _ (shapedList_map_chan _ (shapedList_map_chan _
      (shapedList_run _ _ _ hsh)))⟩

/-- A projection/refinement stage with no upsample block (third stage of the
DCT variant). -/
theorem stageFlat (g : GRUCell) (p q : ChanLayer) (h0 : Tensor)
    (inp : List Tensor) {b ch hh ww m : Nat} (hlen : inp.length = m)
    (hsh : ShapedList b ch hh ww inp) :
    ∃ A, (((g.run h0 inp).map p.apply).map q.apply) = A ∧ A.length = m ∧
      ShapedList b q.outChan hh ww A :=
  ⟨_, rfl, by simp [List.length_map, GRUCell.run_length, hlen],
    shapedList_map_chan _ (shapedList_map_chan _ (shapedList_run _ _ _ hsh))⟩

namespace Det

theorem hidden1_eq (s : Sampler) (ics lcs : List Tensor) {l3 i3 : Tensor}
    (h3 : lcs.get? 3 = some l3) (hi3 : ics.get? 3 = some i3) :
    s.hidden1 ics lcs
      = some ((((s.convGRU1.run i3 (List.replicate s.forecast_steps l3)).map
          s.gru_conv_1x1.apply).map s.g1.apply).map s.up_g1.apply) := by
  unfold Sampler.hidden1 Sampler.gru1Input
  rw [h3, hi3]
  rfl

theorem gru2Input_eq (s : Sampler) (ics lcs : List Tensor) {hs : List Tensor} {l2 : Tensor}
    (h : s.hidden1 ics lcs = some hs) (hl : lcs.get? 2 = some l2)
    (hlen : hs.length = s.forecast_steps) :
    s.gru2Input ics lcs = some (hs.map (fun t => Tensor.cat1 l2 t)) := by
  unfold Sampler.gru2Input
  rw [h, hl]
  show idxMap hs _ s.forecast_steps = _
  rw [← hlen]
  exact idxMap_length_self hs _

theorem hidden2_eq (s : Sampler) (ics lcs : List Tensor) {inp : List Tensor} {i2 : Tensor}
    (h : s.gru2Input ics lcs = some inp) (hi : ics.get? 2 = some i2) :
    s.hidden2 ics lcs
      = some ((((s.convGRU2.run i2 inp).map s.gru_conv_1x1_2.apply).map s.g2.apply).map
          s.up_g2.apply) := by
  unfold Sampler.hidden2
  rw [h, hi]
  rfl

theorem gru3Input_eq (s : Sampler) (ics lcs : List Tensor) {hs : List Tensor} {l1 : Tensor}
    (h : s.hidden2 ics lcs = some hs) (hl : lcs.get? 1 = some l1)
    (hlen : hs.length = s.forecast_steps) :
    s.gru3Input ics lcs = some (hs.map (fun t => Tensor.cat1 l1 t)) := by
  unfold Sampler.gru3Input
  rw [h, hl]
  show idxMap hs _ s.forecast_steps = _
  rw [← hlen]
  exact idxMap_length_self hs _

theorem hidden3_eq (s : Sampler) (ics lcs : List Tensor) {inp : List Tensor} {i1 : Tensor}
    (h : s.gru3Input ics lcs = some inp) (hi : ics.get? 1 = some i1) :
    s.hidden3 ics lcs
      = some ((((s.convGRU3.run i1 inp).map s.gru_conv_1x1_3.apply).map s.g3.apply).map
          s.up_g3.apply) := by
  unfold Sampler.hidden3
  rw [h, hi]
  rfl

theorem gru4Input_eq (s : Sampler) (ics lcs : List Tensor) {hs : List Tensor} {l0 : Tensor}
    (h : s.hidden3 ics lcs = some hs) (hl : lcs.get? 0 = some l0)
    (hlen : hs.length = s.forecast_steps) :
    s.gru4Input ics lcs = some (hs.map (fun t => Tensor.cat1 l0 t)) := by
  unfold Sampler.gru4Input
  rw [h, hl]
  show idxMap hs _ s.forecast_steps = _
  rw [← hlen]
  exact idxMap_length_self hs _

theorem hidden4_eq (s : Sampler) (ics lcs : List Tensor) {inp : List Tensor} {i0 : Tensor}
    (h : s.gru4Input ics lcs = some inp) (hi : ics.get? 0 = some i0) :
    s.hidden4 ics lcs
      = some ((((s.convGRU4.run i0 inp).map s.gru_conv_1x1_4.apply).map s.g4.apply).map
          s.up_g4.apply) := by
  unfold Sampler.hidden4
  rw [h, hi]
  rfl

theorem forward_eq (s : Sampler) (st : BNState) (ics lcs : List Tensor) {hs : List Tensor}
    (h : s.hidden4 ics lcs = some hs) :
    s.forward st ics lcs
      = (stackDim1 (((bnReluList s.bn st hs).1.map s.conv_1x1.apply).map
          Tensor.depth2space)).map (fun o => (o, (bnReluList s.bn st hs).2)) := by
  unfold Sampler.forward
  rw [h]
  rfl

/-- Master run lemma for the deterministic-variant sampler: whenever both
lists have at least four entries and the number of forecast steps is
positive, `forward` succeeds, and the output shape derives from the
configured channels and the latent entries. -/
theorem runSpec (n lc cc oc : Nat) (w : Weights) (st : BNState)
    (i0 i1 i2 i3 l0 l1 l2 l3 : Tensor) (irest lrest : List Tensor) :
    ∃ out st2,
      (Sampler.make (n + 1) lc cc oc w).forward st (i0 :: i1 :: i2 :: i3 :: irest)
          (l0 :: l1 :: l2 :: l3 :: lrest) = some (out, st2) ∧
      out.batch = l0.batch ∧ out.time = n + 1 ∧ out.chan = oc ∧
      out.height = 4 * l0.height ∧ out.width = 4 * l0.width := by
  obtain ⟨A1, hA1eq, hlen1, hsh1⟩ := stageUp (Sampler.make (n + 1) lc cc oc w).convGRU1
    (Sampler.make (n + 1) lc cc oc w).gru_conv_1x1 (Sampler.make (n + 1) lc cc oc w).g1
    (Sampler.make (n + 1) lc cc oc w).up_g1 i3
    (List.replicate (Sampler.make (n + 1) lc cc oc w).forecast_steps l3)
    (m := n + 1) (by simp [Sampler.make]) (shapedList_replicate _ l3)
  have hA1 : (Sampler.make (n + 1) lc cc oc w).hidden1 (i0 :: i1 :: i2 :: i3 :: irest)
      (l0 :: l1 :: l2 :: l3 :: lrest) = some A1 := by
    rw [hidden1_eq (Sampler.make (n + 1) lc cc oc w) (i0 :: i1 :: i2 :: i3 :: irest)
      (l0 :: l1 :: l2 :: l3 :: lrest) rfl rfl, hA1eq]
  have hg2 := gru2Input_eq (Sampler.make (n + 1) lc cc oc w) _ _ hA1 rfl
    (by rw [hlen1]; rfl)
  obtain ⟨A2, hA2eq, hlen2, hsh2⟩ := stageUp (Sampler.make (n + 1) lc cc oc w).convGRU2
    (Sampler.make (n + 1) lc cc oc w).gru_conv_1x1_2 (Sampler.make (n + 1) lc cc oc w).g2
    (Sampler.make (n + 1) lc cc oc w).up_g2 i2 (A1.map (fun t => Tensor.cat1 l2 t))
    (m := n + 1) (by simp [hlen1]) (shapedList_map_cat l2 hsh1)
  have hA2 : (Sampler.make (n + 1) lc cc oc w).hidden2 (i0 :: i1 :: i2 :: i3 :: irest)
      (l0 :: l1 :: l2 :: l3 :: lrest) = some A2 := by
    rw [hidden2_eq _ _ _ hg2 rfl, hA2eq]
  have hg3 := gru3Input_eq (Sampler.make (n + 1) lc cc oc w) _ _ hA2 rfl
    (by rw [hlen2]; rfl)
  obtain ⟨A3, hA3eq, hlen3, hsh3⟩ := stageUp (Sampler.make (n + 1) lc cc oc w).convGRU3
    (Sampler.make (n + 1) lc cc oc w).gru_conv_1x1_3 (Sampler.make (n + 1) lc cc oc w).g3
    (Sampler.make (n + 1) lc cc oc w).up_g3 i1 (A2.map (fun t => Tensor.cat1 l1 t))
    (m := n + 1) (by simp [hlen2]) (shapedList_map_cat l1 hsh2)
  have hA3 : (Sampler.make (n + 1) lc cc oc w).hidden3 (i0 :: i1 :: i2 :: i3 :: irest)
      (l0 :: l1 :: l2 :: l3 :: lrest) = some A3 := by
    rw [hidden3_eq _ _ _ hg3 rfl, hA3eq]
  have hg4 := gru4Input_eq (Sampler.make (n + 1) lc cc oc w) _ _ hA3 rfl
    (by rw [hlen3]; rfl)
  obtain ⟨A4, hA4eq, hlen4, hsh4⟩ := stageUp (Sampler.make (n + 1) lc cc oc w).convGRU4
    (Sampler.make (n + 1) lc cc oc w).gru_conv_1x1_4 (Sampler.make (n + 1) lc cc oc w).g4
    (Sampler.make (n + 1) lc cc oc w).up_g4 i0 (A3.map (fun t => Tensor.cat1 l0 t))
    (m := n + 1) (by simp [hlen3]) (shapedList_map_cat l0 hsh3)
  have hA4 : (Sampler.make (n + 1) lc cc oc w).hidden4 (i0 :: i1 :: i2 :: i3 :: irest)
      (l0 :: l1 :: l2 :: l3 :: lrest) = some A4 := by
    rw [hidden4_eq _ _ _ hg4 rfl, hA4eq]
  have hfwd := forward_eq (Sampler.make (n + 1) lc cc oc w) st
    (i0 :: i1 :: i2 :: i3 :: irest) (l0 :: l1 :: l2 :: l3 :: lrest) hA4
  have hshF := shapedList_map_d2s (shapedList_map_chan
    (Sampler.make (n + 1) lc cc oc w).conv_1x1
    (shapedList_bnReluList (Sampler.make (n + 1) lc cc oc w).bn st hsh4))
  have hlenF : (((bnReluList (Sampler.make (n + 1) lc cc oc w).bn st A4).1.map
      (Sampler.make (n + 1) lc cc oc w).conv_1x1.apply).map Tensor.depth2space).length
      = n + 1 := by
    simp [List.length_map, bnReluList_length, hlen4]
  have hne : (((bnReluList (Sampler.make (n + 1) lc cc oc w).bn st A4).1.map
      (Sampler.make (n + 1) lc cc oc w).conv_1x1.apply).map Tensor.depth2space) ≠ [] := by
    apply List.ne_nil_of_length_pos
    rw [hlenF]
    exact Nat.succ_pos n
  obtain ⟨o, ho, hob, hot, hoc, hoh, how⟩ := stackDim1_shaped hne hshF
  refine ⟨o, (bnReluList (Sampler.make (n + 1) lc cc oc w).bn st A4).2, ?_, hob, ?_, ?_, ?_, ?_⟩
  · rw [hfwd, ho]
    rfl
  · rw [hot, hlenF]
  · rw [hoc]
    exact Nat.mul_div_cancel_left oc (by norm_num)
  · rw [hoh]
    ring
  · rw [how]
    ring

end Det

namespace Dct

theorem hidden1D_eq (s : Sampler) (cond : List Tensor) (lat : Tensor) {c0 c2 : Tensor}
    (h0 : cond.get? 0 = some c0) (h2 : cond.get? 2 = some c2) :
    s.hidden1 cond lat
      = some ((((s.convGRU1.run c2
          (List.replicate s.forecast_steps (lat.repeatBatch c0.batch))).map
          s.gru_conv_1x1.apply).map s.g1.apply).map s.up_g1.apply) := by
  unfold Sampler.hidden1 Sampler.gru1Input
  rw [h0, h2]
  rfl

theorem hidden2D_eq (s : Sampler) (cond : List Tensor) (lat : Tensor) {hs : List Tensor}
    {c1 : Tensor} (h : s.hidden1 cond lat = some hs) (h1 : cond.get? 1 = some c1) :
    s.hidden2 cond lat
      = some ((((s.convGRU2.run c1 hs).map s.gru_conv_1x1_2.apply).map s.g2.apply).map
          s.up_g2.apply) := by
  unfold Sampler.hidden2
  rw [h, h1]
  rfl

theorem hidden3D_eq (s : Sampler) (cond : List Tensor) (lat : Tensor) {hs : List Tensor}
    {c0 : Tensor} (h : s.hidden2 cond lat = some hs) (h0 : cond.get? 0 = some c0) :
    s.hidden3 cond lat
      = some (((s.convGRU3.run c0 hs).map s.gru_conv_1x1_3.apply).map s.g3.apply) := by
  unfold Sampler.hidden3
  rw [h, h0]
  rfl

theorem forwardD_eq (s : Sampler) (st : BNState) (cond : List Tensor) (lat : Tensor)
    {hs : List Tensor} (h : s.hidden3 cond lat = some hs) :
    s.forward st cond lat
      = (stackDim1 ((bnReluList s.bn st hs).1.map s.conv_1x1.apply)).map
          (fun o => (o, (bnReluList s.bn st hs).2)) := by
  unfold Sampler.forward
  rw [h]
  rfl

/-- Master run lemma for the DCT-variant sampler: whenever the context list
has at least three entries and the number of forecast steps is positive,
`forward` succeeds, and the output shape derives from the configured channels
and the latent tensor. -/
theorem runSpecD (n lc cc oc : Nat) (w : Weights) (st : BNState)
    (c0 c1 c2 : Tensor) (crest : List Tensor) (lat : Tensor) :
    ∃ out st2,
      (Sampler.make (n + 1) lc cc oc w).forward st (c0 :: c1 :: c2 :: crest) lat
        = some (out, st2) ∧
      out.batch = c0.batch * lat.batch ∧ out.time = n + 1 ∧ out.chan = oc / 4 ∧
      out.height = 4 * lat.height ∧ out.width = 4 * lat.width := by
  obtain ⟨A1, hA1eq, hlen1, hsh1⟩ := stageUp (Sampler.make (n + 1) lc cc oc w).convGRU1
    (Sampler.make (n + 1) lc cc oc w).gru_conv_1x1 (Sampler.make (n + 1) lc cc oc w).g1
    (Sampler.make (n + 1) lc cc oc w).up_g1 c2
    (List.replicate (Sampler.make (n + 1) lc cc oc w).forecast_steps (lat.repeatBatch c0.batch))
    (m := n + 1) (by simp [Sampler.make]) (shapedList_replicate _ (lat.repeatBatch c0.batch))
  have hA1 : (Sampler.make (n + 1) lc cc oc w).hidden1 (c0 :: c1 :: c2 :: crest) lat
      = some A1 := by
    rw [hidden1D_eq (Sampler.make (n + 1) lc cc oc w) (c0 :: c1 :: c2 :: crest) lat rfl rfl,
      hA1eq]
  obtain ⟨A2, hA2eq, hlen2, hsh2⟩ := stageUp (Sampler.make (n + 1) lc cc oc w).convGRU2
    (Sampler.make (n + 1) lc cc oc w).gru_conv_1x1_2 (Sampler.make (n + 1) lc cc oc w).g2
    (Sampler.make (n + 1) lc cc oc w).up_g2 c1 A1 (m := n + 1) hlen1 hsh1
  have hA2 : (Sampler.make (n + 1) lc cc oc w).hidden2 (c0 :: c1 :: c2 :: crest) lat
      = some A2 := by
    rw [hidden2D_eq _ _ _ hA1 rfl, hA2eq]
  obtain ⟨A3, hA3eq, hlen3, hsh3⟩ := stageFlat (Sampler.make (n + 1) lc cc oc w).convGRU3
    (Sampler.make (n + 1) lc cc oc w).gru_conv_1x1_3 (Sampler.make (n + 1) lc cc oc w).g3
    c0 A2 (m := n + 1) hlen2 hsh2
  have hA3 : (Sampler.make (n + 1) lc cc oc w).hidden3 (c0 :: c1 :: c2 :: crest) lat
      = some A3 := by
    rw [hidden3D_eq _ _ _ hA2 rfl, hA3eq]
  have hfwd := forwardD_eq (Sampler.make (n + 1) lc cc oc w) st (c0 :: c1 :: c2 :: crest)
    lat hA3
  have hshF := shapedList_map_chan (Sampler.make (n + 1) lc cc oc w).conv_1x1
    (shapedList_bnReluList (Sampler.make (n + 1) lc cc oc w).bn st hsh3)
  have hlenF : ((bnReluList (Sampler.make (n + 1) lc cc oc w).bn st A3).1.map
      (Sampler.make (n + 1) lc cc oc w).conv_1x1.apply).length = n + 1 := by
    simp [List.length_map, bnReluList_length, hlen3]
  have hne : ((bnReluList (Sampler.make (n + 1) lc cc oc w).bn st A3).1.map
      (Sampler.make (n + 1) lc cc oc w).conv_1x1.apply) ≠ [] := by
    apply List.ne_nil_of_length_pos
    rw [hlenF]
    exact Nat.succ_pos n
  obtain ⟨o, ho, hob, hot, hoc, hoh, how⟩ := stackDim1_shaped hne hshF
  refine ⟨o, (bnReluList (Sampler.make (n + 1) lc cc oc w).bn st A3).2, ?_, ?_, ?_, ?_, ?_, ?_⟩
  · rw [hfwd, ho]
    rfl
  · rw [hob]
    rfl
  · rw [hot, hlenF]
  · rw [hoc]
    rfl
  · rw [hoh]
    show 2 * (2 * lat.height) = 4 * lat.height
    ring
  · rw [how]
    show 2 * (2 * lat.width) = 4 * lat.width
    ring

end Dct

theorem dctMInv_mul_dctM : dctMInv * dctM = 1 := by
  ext i j
  fin_cases i <;> fin_cases j <;>
    norm_num [Matrix.mul_apply, Fin.sum_univ_two, dctM, dctMInv, Matrix.one_apply]

theorem dctMT_mul_dctMInvT : dctM.transpose * dctMInv.transpose = 1 := by
  have h := congrArg Matrix.transpose dctMInv_mul_dctM
  rw [Matrix.transpose_mul, Matrix.transpose_one] at h
  exact h

theorem blockIdct_blockDct (b : Matrix (Fin 2) (Fin 2) ℚ) :
    blockIdct (blockDct b) = b := by
  unfold blockIdct blockDct
  rw [← Matrix.mul_assoc dctMInv (dctM * b), ← Matrix.mul_assoc dctMInv dctM,
    dctMInv_mul_dctM, Matrix.one_mul, Matrix.mul_assoc, dctMT_mul_dctMInvT,
    Matrix.mul_one]

theorem frameBlock_conv_dct (x : DFrame) (p q : Nat) :
    frameBlock (conv_dct x) p q = blockDct (frameBlock x p q) := by
  funext a b
  have ha := a.isLt
  have hb := b.isLt
  have h1 : (2 * p + a.val) / 2 = p := by omega
  have h2 : (2 * p + a.val) % 2 = a.val := by omega
  have h3 : (2 * q + b.val) / 2 = q := by omega
  have h4 : (2 * q + b.val) % 2 = b.val := by omega
  have e1 : (⟨(2 * p + a.val) % 2, Nat.mod_lt _ (by decide)⟩ : Fin 2) = a := Fin.ext h2
  have e2 : (⟨(2 * q + b.val) % 2, Nat.mod_lt _ (by decide)⟩ : Fin 2) = b := Fin.ext h4
  show blockDct (frameBlock x ((2 * p + a.val) / 2) ((2 * q + b.val) / 2))
      ⟨(2 * p + a.val) % 2, Nat.mod_lt _ (by decide)⟩
      ⟨(2 * q + b.val) % 2, Nat.mod_lt _ (by decide)⟩
    = blockDct (frameBlock x p q) a b
  rw [h1, h3, e1, e2]

/-- The DCT round trip, blockwise. -/
theorem conv_idct_conv_dct (x : DFrame) : conv_idct (conv_dct x) = x := by
  funext i j
  show blockIdct (frameBlock (conv_dct x) (i / 2) (j / 2))
      ⟨i % 2, Nat.mod_lt _ (by decide)⟩ ⟨j % 2, Nat.mod_lt _ (by decide)⟩ = x i j
  rw [frameBlock_conv_dct, blockIdct_blockDct]
  show x (2 * (i / 2) + i % 2) (2 * (j / 2) + j % 2) = x i j
  congr 1 <;> omega

/-- Re-running the batch-normalised output layer from the state left behind
by a first run produces the same outputs: in training mode the outputs do not
read the running statistics, and in eval mode the statistics do not change. -/
theorem bnReluList_fst_stable (l : BNLayer) (st : BNState) (xs : List Tensor) :
    (bnReluList l (bnReluList l st xs).2 xs).1 = (bnReluList l st xs).1 := by
  cases hst : st.train with
  | false =>
    have h := bnReluList_eval l hst xs
    rw [h, h]
  | true =>
    have hflag : (bnReluList l st xs).2.train = true := by
      rw [bnReluList_train_flag]
      exact hst
    exact bnReluList_train_fst l hflag hst xs

namespace Det

theorem forward_none_of_hidden1 (s : Sampler) (st : BNState) (ics lcs : List Tensor)
    (h : s.hidden1 ics lcs = none) : s.forward st ics lcs = none := by
  have hg2 : s.gru2Input ics lcs = none := by
    unfold Sampler.gru2Input
    rw [h]
    rfl
  have hh2 : s.hidden2 ics lcs = none := by
    unfold Sampler.hidden2
    rw [hg2]
    rfl
  have hg3 : s.gru3Input ics lcs = none := by
    unfold Sampler.gru3Input
    rw [hh2]
    rfl
  have hh3 : s.hidden3 ics lcs = none := by
    unfold Sampler.hidden3
    rw [hg3]
    rfl
  have hg4 : s.gru4Input ics lcs = none := by
    unfold Sampler.gru4Input
    rw [hh3]
    rfl
  have hh4 : s.hidden4 ics lcs = none := by
    unfold Sampler.hidden4
    rw [hg4]
    rfl
  unfold Sampler.forward
  rw [hh4]
  rfl

theorem hidden1_none_of_lcs (s : Sampler) (ics lcs : List Tensor)
    (h : lcs.get? 3 = none) : s.hidden1 ics lcs = none := by
  unfold Sampler.hidden1 Sampler.gru1Input
  rw [h]
  rfl

theorem hidden1_none_of_ics (s : Sampler) (ics lcs : List Tensor)
    (h : ics.get? 3 = none) : s.hidden1 ics lcs = none := by
  unfold Sampler.hidden1 Sampler.gru1Input
  cases hl : lcs.get? 3 with
  | none => rfl
  | some l3 =>
    rw [h]
    rfl

/-- A context list truncated to three entries makes `forward` fail: the
read of `init_states[3]` is out of range. -/
theorem forward_take3_ics (s : Sampler) (st : BNState) (ics lcs : List Tensor) :
    s.forward st (ics.take 3) lcs = none := by
  apply forward_none_of_hidden1
  apply hidden1_none_of_ics
  rw [List.get?_eq_none]
  rw [List.length_take]
  exact Nat.min_le_left _ _

/-- A latent list truncated to three entries makes `forward` fail: the read
of `latent_dim[3]` is out of range. -/
theorem forward_take3_lcs (s : Sampler) (st : BNState) (ics lcs : List Tensor) :
    s.forward st ics (lcs.take 3) = none := by
  apply forward_none_of_hidden1
  apply hidden1_none_of_lcs
  rw [List.get?_eq_none]
  rw [List.length_take]
  exact Nat.min_le_left _ _

/-- Entries of either list beyond the first four are never read. -/
theorem forward_tail_irrelevant (s : Sampler) (st : BNState)
    (i0 i1 i2 i3 l0 l1 l2 l3 : Tensor) (irest irest2 lrest lrest2 : List Tensor) :
    s.forward st (i0 :: i1 :: i2 :: i3 :: irest) (l0 :: l1 :: l2 :: l3 :: lrest)
      = s.forward st (i0 :: i1 :: i2 :: i3 :: irest2) (l0 :: l1 :: l2 :: l3 :: lrest2) :=
  rfl

/-- Sequential double invocation of the deterministic sampler with identical
inputs yields the same output tensor. -/
theorem forward_twice (s : Sampler) (st : BNState) (ics lcs : List Tensor) :
    ((s.forward st ics lcs).bind fun p => s.forward p.2 ics lcs).map Prod.fst
      = (s.forward st ics lcs).map Prod.fst := by
  cases h : s.hidden4 ics lcs with
  | none =>
    have h1 : s.forward st ics lcs = none := by
      unfold Sampler.forward
      rw [h]
      rfl
    rw [h1]
    rfl
  | some hs =>
    cases hstack : stackDim1 (((bnReluList s.bn st hs).1.map s.conv_1x1.apply).map
        Tensor.depth2space) with
    | none =>
      have h1 : s.forward st ics lcs = none := by
        rw [forward_eq s st ics lcs h, hstack]
        rfl
      rw [h1]
      rfl
    | some o =>
      have h2 := forward_eq s ((bnReluList s.bn st hs).2) ics lcs h
      rw [bnReluList_fst_stable] at h2
      rw [forward_eq s st ics lcs h, hstack]
      show (s.forward ((bnReluList s.bn st hs).2) ics lcs).map Prod.fst = some o
      rw [h2, hstack]
      rfl

end Det

namespace Dct

theorem forwardD_none_of_hidden1 (s : Sampler) (st : BNState) (cond : List Tensor)
    (lat : Tensor) (h : s.hidden1 cond lat = none) : s.forward st cond lat = none := by
  have hh2 : s.hidden2 cond lat = none := by
    unfold Sampler.hidden2
    rw [h]
    rfl
  have hh3 : s.hidden3 cond lat = none := by
    unfold Sampler.hidden3
    rw [hh2]
    rfl
  unfold Sampler.forward
  rw [hh3]
  rfl

/-- A context list truncated to two entries makes `forward` fail: the read of
`init_states[2]` is out of range. -/
theorem forward_take2 (s : Sampler) (st : BNState) (cond : List Tensor) (lat : Tensor) :
    s.forward st (cond.take 2) lat = none := by
  apply forwardD_none_of_hidden1
  have h2 : (cond.take 2).get? 2 = none := by
    rw [List.get?_eq_none]
    rw [List.length_take]
    exact Nat.min_le_left _ _
  unfold Sampler.hidden1 Sampler.gru1Input
  cases h0 : (cond.take 2).get? 0 with
  | none => rfl
  | some c0 =>
    rw [h2]
    rfl

/-- Context entries beyond the first three are never read by the DCT-variant
sampler. -/
theorem forwardD_tail_irrelevant (s : Sampler) (st : BNState) (c0 c1 c2 : Tensor)
    (rest rest2 : List Tensor) (lat : Tensor) :
    s.forward st (c0 :: c1 :: c2 :: rest) lat = s.forward st (c0 :: c1 :: c2 :: rest2) lat :=
  rfl

/-- Sequential double invocation of the DCT-variant sampler with identical
inputs yields the same output tensor. -/
theorem forwardD_twice (s : Sampler) (st : BNState) (cond : List Tensor) (lat : Tensor) :
    ((s.forward st cond lat).bind fun p => s.forward p.2 cond lat).map Prod.fst
      = (s.forward st cond lat).map Prod.fst := by
  cases h : s.hidden3 cond lat with
  | none =>
    have h1 : s.forward st cond lat = none := by
      unfold Sampler.forward
      rw [h]
      rfl
    rw [h1]
    rfl
  | some hs =>
    cases hstack : stackDim1 ((bnReluList s.bn st hs).1.map s.conv_1x1.apply) with
    | none =>
      have h1 : s.forward st cond lat = none := by
        rw [forwardD_eq s st cond lat h, hstack]
        rfl
      rw [h1]
      rfl
    | some o =>
      have h2 := forwardD_eq s ((bnReluList s.bn st hs).2) cond lat h
      rw [bnReluList_fst_stable] at h2
      rw [forwardD_eq s st cond lat h, hstack]
      show (s.forward ((bnReluList s.bn st hs).2) cond lat).map Prod.fst = some o
      rw [h2, hstack]
      rfl

end Dct

/-! ## Concrete instances used for evaluation -/

/-- A tensor of the given shape with all-zero payload. -/
def constT (b c h w : Nat) : Tensor :=
  { batch := b, chan := c, height := h, width := w, data := fun _ _ _ _ => 0 }

/-- The all-zero unary kernel. -/
def zeroDK : DKer := fun _ _ _ _ _ => 0

/-- The all-zero recurrent kernel. -/
def zeroGK : GKer := fun _ _ _ _ _ _ => 0

/-- The all-zero eval-mode batch-normalisation kernel. -/
def zeroSK : SKer := fun _ _ _ _ _ _ => 0

/-- The all-zero statistics update. -/
def zeroUK : (Nat → Int) → Tensor → Nat → Int := fun _ _ _ => 0

/-- All-zero weights for the deterministic-variant sampler. -/
def Det.zeroW : Det.Weights :=
  { gru1 := zeroGK, gru2 := zeroGK, gru3 := zeroGK, gru4 := zeroGK,
    c1 := zeroDK, c2 := zeroDK, c3 := zeroDK, c4 := zeroDK,
    gb1 := zeroDK, gb2 := zeroDK, gb3 := zeroDK, gb4 := zeroDK,
    up1 := zeroDK, up2 := zeroDK, up3 := zeroDK, up4 := zeroDK,
    bnTrain := zeroDK, bnEval := zeroSK, bnUpd := zeroUK, out := zeroDK }

/-- All-zero weights for the DCT-variant sampler. -/
def Dct.zeroW : Dct.Weights :=
  { gru1 := zeroGK, gru2 := zeroGK, gru3 := zeroGK,
    c1 := zeroDK, c2 := zeroDK, c3 := zeroDK,
    gb1 := zeroDK, gb2 := zeroDK, gb3 := zeroDK,
    up1 := zeroDK, up2 := zeroDK,
    bnTrain := zeroDK, bnEval := zeroSK, bnUpd := zeroUK, out := zeroDK }

/-- An eval-mode batch-normalisation state with zeroed statistics. -/
def st0 : BNState := { train := false, stats := fun _ => 0 }

/-- Following the spec (section 4.1, step 1), which claims that in later
stages each element of the ConvGRU input sequence is the channel-wise
concatenation of the matching-scale CONTEXT tensor (the entry of the context
state list, here entry 2) with the previous upsampled hidden state.  This
definition exists to be compared with `Det.Sampler.gru2Input`, which the code
actually computes. -/
def Det.Sampler.specGRU2Input (s : Det.Sampler) (ics lcs : List Tensor) :
    Option (List Tensor) := do
  let hs ← s.hidden1 ics lcs
  let c2 ← ics.get? 2
  idxMap hs (fun h => Tensor.cat1 c2 h) s.forecast_steps

/-! ## Configuration record lemmas -/

theorem samplerStoredConfig_no_kwargs (fs lc cc oc : Nat) :
    samplerStoredConfig fs lc cc oc []
      = CVal.dict (samplerLocalsConfig fs lc cc oc []) := rfl

theorem samplerInitFields_explicit (fs lc cc oc : Nat) :
    samplerInitFields fs lc cc oc [] = some (fs, lc, cc, oc) := rfl

theorem samplerInitFields_reload (fs lc cc oc a b c d : Nat) :
    samplerInitFields a b c d [("config", samplerStoredConfig fs lc cc oc [])]
      = some (fs, lc, cc, oc) := rfl

theorem samplerLocalsConfig_has_kwargs (fs lc cc oc : Nat) :
    "kwargs" ∈ (samplerLocalsConfig fs lc cc oc []).map Prod.fst := by
  simp [samplerLocalsConfig]

/-! ## Claim theorems -/

/-- Claim C5: for every valid configuration (forecast horizon at least one
step), calling the Sampler with a context list of length 4 and a correctly
shaped latent input produces an output tensor whose forecast-horizon axis
(the stacking axis) has exactly `forecast_steps` entries, in both variants. -/
theorem spec_c5 :
    (∀ (n lc cc oc : Nat) (wd : Det.Weights) (st : BNState)
        (i0 i1 i2 i3 l0 l1 l2 l3 : Tensor),
      ∃ out st2,
        (Det.Sampler.make (n + 1) lc cc oc wd).forward st [i0, i1, i2, i3]
            [l0, l1, l2, l3] = some (out, st2) ∧ out.time = n + 1) ∧
    (∀ (n lc cc oc : Nat) (wc : Dct.Weights) (st : BNState) (c0 c1 c2 c3 : Tensor)
        (lat : Tensor),
      ∃ out st2,
        (Dct.Sampler.make (n + 1) lc cc oc wc).forward st [c0, c1, c2, c3] lat
          = some (out, st2) ∧ out.time = n + 1) := by
  constructor
  · intro n lc cc oc wd st i0 i1 i2 i3 l0 l1 l2 l3
    obtain ⟨out, st2, heq, _, ht, _, _, _⟩ :=
      Det.runSpec n lc cc oc wd st i0 i1 i2 i3 l0 l1 l2 l3 [] []
    exact ⟨out, st2, heq, ht⟩
  · intro n lc cc oc wc st c0 c1 c2 c3 lat
    obtain ⟨out, st2, heq, _, ht, _, _, _⟩ :=
      Dct.runSpecD n lc cc oc wc st c0 c1 c2 [c3] lat
    exact ⟨out, st2, heq, ht⟩

/-- Claim C6 (amended): the forward call fails (with an out-of-range read)
exactly when the context or latent list is too short — fewer than 4 entries
in the deterministic variant, fewer than 3 context entries in the DCT
variant.  A context list that is too long does not fail: entries beyond the
read prefix are silently ignored and the call still returns a forecast. -/
theorem spec_c6 :
    (∀ (s : Det.Sampler) (st : BNState) (ics lcs : List Tensor),
        s.forward st (ics.take 3) lcs = none) ∧
    (∀ (s : Det.Sampler) (st : BNState) (ics lcs : List Tensor),
        s.forward st ics (lcs.take 3) = none) ∧
    (∀ (s : Dct.Sampler) (st : BNState) (cond : List Tensor) (lat : Tensor),
        s.forward st (cond.take 2) lat = none) ∧
    (∀ (s : Det.Sampler) (st : BNState) (i0 i1 i2 i3 l0 l1 l2 l3 : Tensor)
        (r r2 q q2 : List Tensor),
        s.forward st (i0 :: i1 :: i2 :: i3 :: r) (l0 :: l1 :: l2 :: l3 :: q)
          = s.forward st (i0 :: i1 :: i2 :: i3 :: r2) (l0 :: l1 :: l2 :: l3 :: q2)) ∧
    (∀ (n lc cc oc : Nat) (wd : Det.Weights) (st : BNState)
        (i0 i1 i2 i3 l0 l1 l2 l3 : Tensor) (r q : List Tensor),
        ((Det.Sampler.make (n + 1) lc cc oc wd).forward st (i0 :: i1 :: i2 :: i3 :: r)
          (l0 :: l1 :: l2 :: l3 :: q)).isSome = true) := by
  refine ⟨Det.forward_take3_ics, Det.forward_take3_lcs, Dct.forward_take2, ?_, ?_⟩
  · intro s st i0 i1 i2 i3 l0 l1 l2 l3 r r2 q q2
    exact Det.forward_tail_irrelevant s st i0 i1 i2 i3 l0 l1 l2 l3 r r2 q q2
  · intro n lc cc oc wd st i0 i1 i2 i3 l0 l1 l2 l3 r q
    obtain ⟨out, st2, heq, _⟩ := Det.runSpec n lc cc oc wd st i0 i1 i2 i3 l0 l1 l2 l3 r q
    rw [heq]
    rfl

/-- Counterexample to claim C6 as stated: a deterministic-variant call with a
context list of length 5 succeeds and returns a forecast rather than
failing. -/
theorem c6_counterexample :
    ((Det.Sampler.make 1 16 8 4 Det.zeroW).forward st0
        [constT 2 8 8 8, constT 2 4 4 4, constT 2 2 2 2, constT 2 1 1 1, constT 2 1 1 1]
        [constT 2 16 8 8, constT 2 8 4 4, constT 2 4 2 2, constT 2 16 1 1]).isSome
        = true
      ∧ ([constT 2 8 8 8, constT 2 4 4 4, constT 2 2 2 2, constT 2 1 1 1,
          constT 2 1 1 1] : List Tensor).length ≠ 4 := by
  constructor
  · obtain ⟨out, st2, heq, _⟩ := Det.runSpec 0 16 8 4 Det.zeroW st0 (constT 2 8 8 8)
      (constT 2 4 4 4) (constT 2 2 2 2) (constT 2 1 1 1) (constT 2 16 8 8)
      (constT 2 8 4 4) (constT 2 4 2 2) (constT 2 16 1 1) [constT 2 1 1 1] []
    norm_num at heq
    rw [heq]
    rfl
  · decide

/-- Claim C10: the DCT-variant `Sampler.forward` reads only entries 0, 1 and
2 of the context state list: outputs are identical for inputs differing only
in the fourth (or any later) entry, and a 3-entry context list succeeds. -/
theorem spec_c10 :
    (∀ (s : Dct.Sampler) (st : BNState) (c0 c1 c2 d d2 : Tensor) (lat : Tensor),
        s.forward st [c0, c1, c2, d] lat = s.forward st [c0, c1, c2, d2] lat) ∧
    (∀ (s : Dct.Sampler) (st : BNState) (c0 c1 c2 : Tensor) (rest rest2 : List Tensor)
        (lat : Tensor),
        s.forward st (c0 :: c1 :: c2 :: rest) lat
          = s.forward st (c0 :: c1 :: c2 :: rest2) lat) ∧
    (∀ (n lc cc oc : Nat) (wc : Dct.Weights) (st : BNState) (c0 c1 c2 : Tensor)
        (lat : Tensor),
        ∃ out st2, (Dct.Sampler.make (n + 1) lc cc oc wc).forward st [c0, c1, c2] lat
          = some (out, st2)) := by
  refine ⟨?_, ?_, ?_⟩
  · intro s st c0 c1 c2 d d2 lat
    exact Dct.forwardD_tail_irrelevant s st c0 c1 c2 [d] [d2] lat
  · intro s st c0 c1 c2 rest rest2 lat
    exact Dct.forwardD_tail_irrelevant s st c0 c1 c2 rest rest2 lat
  · intro n lc cc oc wc st c0 c1 c2 lat
    obtain ⟨out, st2, heq, _⟩ := Dct.runSpecD n lc cc oc wc st c0 c1 c2 [] lat
    exact ⟨out, st2, heq⟩

/-- Claim C8: the forward pass is deterministic — a pure function of the
inputs and the module state, with no randomness of its own.  In particular,
invoking `forward` a second time, from the module state left behind by a
first invocation and with identical inputs, produces the identical output
tensor (the only mutable state, the batch-normalisation running statistics,
either is not read (training mode) or is not written (eval mode)).  This
holds for both samplers and for the composed Generator. -/
theorem spec_c8 :
    (∀ (s : Det.Sampler) (st : BNState) (ics lcs : List Tensor),
        ((s.forward st ics lcs).bind fun p => s.forward p.2 ics lcs).map Prod.fst
          = (s.forward st ics lcs).map Prod.fst) ∧
    (∀ (s : Dct.Sampler) (st : BNState) (cond : List Tensor) (lat : Tensor),
        ((s.forward st cond lat).bind fun p => s.forward p.2 cond lat).map Prod.fst
          = (s.forward st cond lat).map Prod.fst) ∧
    (∀ (g : Det.Generator) (st : BNState) (x y : Tensor5),
        ((g.forward st x y).bind fun p => g.forward p.2 x y).map Prod.fst
          = (g.forward st x y).map Prod.fst) :=
  ⟨Det.forward_twice, Dct.forwardD_twice,
    fun g st x y => Det.forward_twice g.sampler st (g.ics x) (g.lcs y)⟩

/-- Claim C7: in the frequency-domain variant, applying the forward DCT
transform and then immediately the inverse transform to an arbitrary frame,
bypassing the conditioning stacks and the Sampler, reconstructs the original
frame exactly (round-trip law of the fixed transform pair). -/
theorem spec_c7 : ∀ x : DFrame, conv_idct (conv_dct x) = x :=
  conv_idct_conv_dct

/-- Claim C9 (amended): the configuration record stored by `__init__` holds
the four named constructor arguments together with a fifth entry, the
residual keyword-argument mapping under the key "kwargs" (since the code pops
only `self` and `__class__` from `locals()`).  The four configuration values
round-trip exactly through reconstruction from the stored record via the
`config` keyword argument. -/
theorem spec_c9 :
    ∀ fs lc cc oc : Nat,
      samplerStoredConfig fs lc cc oc [] = CVal.dict (samplerLocalsConfig fs lc cc oc []) ∧
      samplerInitFields fs lc cc oc [] = some (fs, lc, cc, oc) ∧
      (∀ a b c d : Nat,
        samplerInitFields a b c d [("config", samplerStoredConfig fs lc cc oc [])]
          = some (fs, lc, cc, oc)) ∧
      "kwargs" ∈ (samplerLocalsConfig fs lc cc oc []).map Prod.fst :=
  fun fs lc cc oc =>
    ⟨samplerStoredConfig_no_kwargs fs lc cc oc, samplerInitFields_explicit fs lc cc oc,
      fun a b c d => samplerInitFields_reload fs lc cc oc a b c d,
      samplerLocalsConfig_has_kwargs fs lc cc oc⟩

/-- Counterexample to claim C9 as stated: the stored configuration record
does not contain exactly the four constructor arguments — its key set also
holds "kwargs". -/
theorem c9_counterexample :
    ¬ ((samplerLocalsConfig 18 768 384 1 []).map Prod.fst
        = ["forecast_steps", "latent_channels", "context_channels", "output_channels"]) := by
  decide

/-- Claim C1 (amended): with context and latent scale lists whose spatial
sizes halve from `8h × 8v` down to the coarsest `h × v`, the deterministic
variant's output has spatial size `32h × 32v` — 32 times the coarsest context
size (four upsample doublings followed by the depth-to-space rearrangement),
not 16 times; in the default end-to-end scenario (coarsest size 8) the output
is `(batch, 18, 1, 256, 256)`.  The DCT variant, whose latent sits at the
third scale `2h × 2v` and which applies two upsample doublings and no
depth-to-space, outputs `8h × 8v` — 8 times the coarsest context size, as
claimed. -/
theorem spec_c1 :
    (∀ (n lc cc oc : Nat) (wd : Det.Weights) (st : BNState) (h v : Nat)
        (b0 b1 b2 b3 a0 a1 a2 a3 k0 k1 k2 k3 m0 m1 m2 m3 : Nat)
        (d0 d1 d2 d3 e0 e1 e2 e3 : Nat → Nat → Nat → Nat → Int),
      ∃ out st2,
        (Det.Sampler.make (n + 1) lc cc oc wd).forward st
            [⟨b0, k0, 8 * h, 8 * v, d0⟩, ⟨b1, k1, 4 * h, 4 * v, d1⟩,
             ⟨b2, k2, 2 * h, 2 * v, d2⟩, ⟨b3, k3, h, v, d3⟩]
            [⟨a0, m0, 8 * h, 8 * v, e0⟩, ⟨a1, m1, 4 * h, 4 * v, e1⟩,
             ⟨a2, m2, 2 * h, 2 * v, e2⟩, ⟨a3, m3, h, v, e3⟩]
          = some (out, st2)
        ∧ out.height = 32 * h ∧ out.width = 32 * v ∧ out.time = n + 1
        ∧ out.chan = oc ∧ out.batch = a0) ∧
    (∀ (n lc cc oc : Nat) (wc : Dct.Weights) (st : BNState) (h v : Nat)
        (b0 b1 b2 b3 k0 k1 k2 k3 bl kl : Nat)
        (d0 d1 d2 d3 dl : Nat → Nat → Nat → Nat → Int),
      ∃ out st2,
        (Dct.Sampler.make (n + 1) lc cc oc wc).forward st
            [⟨b0, k0, 8 * h, 8 * v, d0⟩, ⟨b1, k1, 4 * h, 4 * v, d1⟩,
             ⟨b2, k2, 2 * h, 2 * v, d2⟩, ⟨b3, k3, h, v, d3⟩]
            ⟨bl, kl, 2 * h, 2 * v, dl⟩
          = some (out, st2)
        ∧ out.height = 8 * h ∧ out.width = 8 * v ∧ out.time = n + 1
        ∧ out.chan = oc / 4 ∧ out.batch = b0 * bl) := by
  constructor
  · intro n lc cc oc wd st h v b0 b1 b2 b3 a0 a1 a2 a3 k0 k1 k2 k3 m0 m1 m2 m3
      d0 d1 d2 d3 e0 e1 e2 e3
    obtain ⟨out, st2, heq, hb, ht, hc, hh, hw⟩ := Det.runSpec n lc cc oc wd st
      ⟨b0, k0, 8 * h, 8 * v, d0⟩ ⟨b1, k1, 4 * h, 4 * v, d1⟩
      ⟨b2, k2, 2 * h, 2 * v, d2⟩ ⟨b3, k3, h, v, d3⟩
      ⟨a0, m0, 8 * h, 8 * v, e0⟩ ⟨a1, m1, 4 * h, 4 * v, e1⟩
      ⟨a2, m2, 2 * h, 2 * v, e2⟩ ⟨a3, m3, h, v, e3⟩ [] []
    refine ⟨out, st2, heq, ?_, ?_, ht, hc, hb⟩
    · rw [hh]
      show 4 * (8 * h) = 32 * h
      ring
    · rw [hw]
      show 4 * (8 * v) = 32 * v
      ring
  · intro n lc cc oc wc st h v b0 b1 b2 b3 k0 k1 k2 k3 bl kl d0 d1 d2 d3 dl
    obtain ⟨out, st2, heq, hb, ht, hc, hh, hw⟩ := Dct.runSpecD n lc cc oc wc st
      ⟨b0, k0, 8 * h, 8 * v, d0⟩ ⟨b1, k1, 4 * h, 4 * v, d1⟩
      ⟨b2, k2, 2 * h, 2 * v, d2⟩ [⟨b3, k3, h, v, d3⟩] ⟨bl, kl, 2 * h, 2 * v, dl⟩
    refine ⟨out, st2, heq, ?_, ?_, ht, hc, hb⟩
    · rw [hh]
      show 4 * (2 * h) = 8 * h
      ring
    · rw [hw]
      show 4 * (2 * v) = 8 * v
      ring

/-- Counterexample to claim C1 as stated: in the spec's end-to-end scenario
(default configuration, context sizes 64, 32, 16, 8, batch 1) the
deterministic variant's output shape is not `(1, 18, 1, 128, 128)` — it is
`(1, 18, 1, 256, 256)`. -/
theorem c1_counterexample :
    ¬ (((Det.Sampler.make 18 768 384 1 Det.zeroW).forward st0
        [constT 1 384 64 64, constT 1 192 32 32, constT 1 96 16 16, constT 1 48 8 8]
        [constT 1 384 64 64, constT 1 192 32 32, constT 1 96 16 16, constT 1 768 8 8]).map
        (fun p => (p.1.batch, p.1.time, p.1.chan, p.1.height, p.1.width))
      = some (1, 18, 1, 128, 128)) := by
  obtain ⟨out, st2, heq, hb, ht, hc, hh, hw⟩ := Det.runSpec 17 768 384 1 Det.zeroW st0
    (constT 1 384 64 64) (constT 1 192 32 32) (constT 1 96 16 16) (constT 1 48 8 8)
    (constT 1 384 64 64) (constT 1 192 32 32) (constT 1 96 16 16) (constT 1 768 8 8) [] []
  norm_num at heq
  intro hcon
  rw [heq] at hcon
  simp only [Option.map_some', Option.some.injEq, Prod.mk.injEq] at hcon
  obtain ⟨-, -, -, h4, -⟩ := hcon
  rw [hh] at h4
  norm_num [constT] at h4

/-- Claim C2 (amended): the per-frame channel count of the output equals
`output_channels` exactly in the deterministic variant (4 · output_channels
from the final 1×1 convolution, divided by 4 by depth-to-space), but equals
`output_channels / 4` (integer division) in the DCT variant, whose final
convolution is configured with `output_channels // 4` output channels. -/
theorem spec_c2 :
    (∀ (n lc cc oc : Nat) (wd : Det.Weights) (st : BNState)
        (i0 i1 i2 i3 l0 l1 l2 l3 : Tensor),
      ∃ out st2,
        (Det.Sampler.make (n + 1) lc cc oc wd).forward st [i0, i1, i2, i3]
          [l0, l1, l2, l3] = some (out, st2) ∧ out.chan = oc) ∧
    (∀ (n lc cc oc : Nat) (wc : Dct.Weights) (st : BNState) (c0 c1 c2 c3 lat : Tensor),
      ∃ out st2,
        (Dct.Sampler.make (n + 1) lc cc oc wc).forward st [c0, c1, c2, c3] lat
          = some (out, st2) ∧ out.chan = oc / 4) := by
  constructor
  · intro n lc cc oc wd st i0 i1 i2 i3 l0 l1 l2 l3
    obtain ⟨out, st2, heq, _, _, hc, _, _⟩ :=
      Det.runSpec n lc cc oc wd st i0 i1 i2 i3 l0 l1 l2 l3 [] []
    exact ⟨out, st2, heq, hc⟩
  · intro n lc cc oc wc st c0 c1 c2 c3 lat
    obtain ⟨out, st2, heq, _, _, hc, _, _⟩ :=
      Dct.runSpecD n lc cc oc wc st c0 c1 c2 [c3] lat
    exact ⟨out, st2, heq, hc⟩

/-- Counterexample to claim C2 as stated: in the DCT variant with
`output_channels = 4`, the output frames carry `4 / 4 = 1` channel, not 4. -/
theorem c2_counterexample :
    ¬ (((Dct.Sampler.make 1 16 8 4 Dct.zeroW).forward st0
        [constT 1 8 4 4, constT 1 4 2 2, constT 1 2 2 2] (constT 1 16 2 2)).map
        (fun p => p.1.chan) = some 4) := by
  obtain ⟨out, st2, heq, _, _, hc, _, _⟩ := Dct.runSpecD 0 16 8 4 Dct.zeroW st0
    (constT 1 8 4 4) (constT 1 4 2 2) (constT 1 2 2 2) [] (constT 1 16 2 2)
  norm_num at heq hc
  intro hcon
  rw [heq] at hcon
  simp only [Option.map_some', Option.some.injEq] at hcon
  rw [hc] at hcon
  exact absurd hcon (by norm_num)

/-- Claim C3 (amended): in the deterministic variant, the first stage's
ConvGRU input sequence has every element equal to entry 3 of the latent list
(with no batch repetition), and each later stage's input sequence has length
`forecast_steps` with element `i` the channel-wise concatenation of the
matching-scale LATENT-list entry — not the context tensor, which serves only
as the stage's initial hidden state — with the previous stage's upsampled
hidden state `i`.  In the DCT variant no stage concatenates at all: the first
stage's inputs all equal the batch-repeated latent tensor, and each later
stage consumes the previous stage's hidden-state sequence directly. -/
theorem spec_c3 :
    (∀ (n lc cc oc : Nat) (wd : Det.Weights) (i0 i1 i2 i3 l0 l1 l2 l3 : Tensor),
      (Det.Sampler.make (n + 1) lc cc oc wd).gru1Input [l0, l1, l2, l3]
          = some (List.replicate (n + 1) l3)
      ∧ ∃ hs1 hs2 hs3,
        (Det.Sampler.make (n + 1) lc cc oc wd).hidden1 [i0, i1, i2, i3] [l0, l1, l2, l3]
            = some hs1
        ∧ (Det.Sampler.make (n + 1) lc cc oc wd).gru2Input [i0, i1, i2, i3]
            [l0, l1, l2, l3] = some (hs1.map (fun t => Tensor.cat1 l2 t))
        ∧ hs1.length = n + 1
        ∧ (Det.Sampler.make (n + 1) lc cc oc wd).hidden2 [i0, i1, i2, i3] [l0, l1, l2, l3]
            = some hs2
        ∧ (Det.Sampler.make (n + 1) lc cc oc wd).gru3Input [i0, i1, i2, i3]
            [l0, l1, l2, l3] = some (hs2.map (fun t => Tensor.cat1 l1 t))
        ∧ hs2.length = n + 1
        ∧ (Det.Sampler.make (n + 1) lc cc oc wd).hidden3 [i0, i1, i2, i3] [l0, l1, l2, l3]
            = some hs3
        ∧ (Det.Sampler.make (n + 1) lc cc oc wd).gru4Input [i0, i1, i2, i3]
            [l0, l1, l2, l3] = some (hs3.map (fun t => Tensor.cat1 l0 t))
        ∧ hs3.length = n + 1) ∧
    (∀ (n lc cc oc : Nat) (wc : Dct.Weights) (c0 c1 c2 : Tensor) (lat : Tensor),
      (Dct.Sampler.make (n + 1) lc cc oc wc).gru1Input [c0, c1, c2] lat
          = some (List.replicate (n + 1) (lat.repeatBatch c0.batch))
      ∧ ∃ dh1 dh2,
        (Dct.Sampler.make (n + 1) lc cc oc wc).hidden1 [c0, c1, c2] lat = some dh1
        ∧ (Dct.Sampler.make (n + 1) lc cc oc wc).hidden2 [c0, c1, c2] lat = some dh2
        ∧ dh2 = ((((Dct.Sampler.make (n + 1) lc cc oc wc).convGRU2.run c1 dh1).map
            (Dct.Sampler.make (n + 1) lc cc oc wc).gru_conv_1x1_2.apply).map
            (Dct.Sampler.make (n + 1) lc cc oc wc).g2.apply).map
            (Dct.Sampler.make (n + 1) lc cc oc wc).up_g2.apply
        ∧ (Dct.Sampler.make (n + 1) lc cc oc wc).hidden3 [c0, c1, c2] lat
            = some ((((Dct.Sampler.make (n + 1) lc cc oc wc).convGRU3.run c0 dh2).map
                (Dct.Sampler.make (n + 1) lc cc oc wc).gru_conv_1x1_3.apply).map
                (Dct.Sampler.make (n + 1) lc cc oc wc).g3.apply)) := by
  constructor
  · intro n lc cc oc wd i0 i1 i2 i3 l0 l1 l2 l3
    refine ⟨rfl, ?_⟩
    obtain ⟨A1, hA1eq, hlen1, hsh1⟩ := stageUp (Det.Sampler.make (n + 1) lc cc oc wd).convGRU1
      (Det.Sampler.make (n + 1) lc cc oc wd).gru_conv_1x1
      (Det.Sampler.make (n + 1) lc cc oc wd).g1
      (Det.Sampler.make (n + 1) lc cc oc wd).up_g1 i3
      (List.replicate (Det.Sampler.make (n + 1) lc cc oc wd).forecast_steps l3)
      (m := n + 1) (by simp [Det.Sampler.make]) (shapedList_replicate _ l3)
    have hA1 : (Det.Sampler.make (n + 1) lc cc oc wd).hidden1 [i0, i1, i2, i3]
        [l0, l1, l2, l3] = some A1 := by
      rw [Det.hidden1_eq (Det.Sampler.make (n + 1) lc cc oc wd) [i0, i1, i2, i3]
        [l0, l1, l2, l3] rfl rfl, hA1eq]
    have hg2 := Det.gru2Input_eq (Det.Sampler.make (n + 1) lc cc oc wd) _ _ hA1 rfl
      (by rw [hlen1]; rfl)
    obtain ⟨A2, hA2eq, hlen2, hsh2⟩ := stageUp (Det.Sampler.make (n + 1) lc cc oc wd).convGRU2
      (Det.Sampler.make (n + 1) lc cc oc wd).gru_conv_1x1_2
      (Det.Sampler.make (n + 1) lc cc oc wd).g2
      (Det.Sampler.make (n + 1) lc cc oc wd).up_g2 i2 (A1.map (fun t => Tensor.cat1 l2 t))
      (m := n + 1) (by simp [hlen1]) (shapedList_map_cat l2 hsh1)
    have hA2 : (Det.Sampler.make (n + 1) lc cc oc wd).hidden2 [i0, i1, i2, i3]
        [l0, l1, l2, l3] = some A2 := by
      rw [Det.hidden2_eq _ _ _ hg2 rfl, hA2eq]
    have hg3 := Det.gru3Input_eq (Det.Sampler.make (n + 1) lc cc oc wd) _ _ hA2 rfl
      (by rw [hlen2]; rfl)
    obtain ⟨A3, hA3eq, hlen3, hsh3⟩ := stageUp (Det.Sampler.make (n + 1) lc cc oc wd).convGRU3
      (Det.Sampler.make (n + 1) lc cc oc wd).gru_conv_1x1_3
      (Det.Sampler.make (n + 1) lc cc oc wd).g3
      (Det.Sampler.make (n + 1) lc cc oc wd).up_g3 i1 (A2.map (fun t => Tensor.cat1 l1 t))
      (m := n + 1) (by simp [hlen2]) (shapedList_map_cat l1 hsh2)
    have hA3 : (Det.Sampler.make (n + 1) lc cc oc wd).hidden3 [i0, i1, i2, i3]
        [l0, l1, l2, l3] = some A3 := by
      rw [Det.hidden3_eq _ _ _ hg3 rfl, hA3eq]
    have hg4 := Det.gru4Input_eq (Det.Sampler.make (n + 1) lc cc oc wd) _ _ hA3 rfl
      (by rw [hlen3]; rfl)
    exact ⟨A1, A2, A3, hA1, hg2, hlen1, hA2, hg3, hlen2, hA3, hg4, hlen3⟩
  · intro n lc cc oc wc c0 c1 c2 lat
    refine ⟨rfl, ?_⟩
    have hA1 := Dct.hidden1D_eq (Dct.Sampler.make (n + 1) lc cc oc wc) [c0, c1, c2] lat
      rfl rfl
    have hA2 := Dct.hidden2D_eq (Dct.Sampler.make (n + 1) lc cc oc wc) [c0, c1, c2] lat
      hA1 rfl
    have hA3 := Dct.hidden3D_eq (Dct.Sampler.make (n + 1) lc cc oc wc) [c0, c1, c2] lat
      hA2 rfl
    exact ⟨_, _, hA1, hA2, rfl, hA3⟩

/-- Concrete context state list for the C3 counterexample: entry 2 has 5
channels. -/
def icsC3 : List Tensor :=
  [constT 1 8 8 8, constT 1 4 4 4, constT 1 5 2 2, constT 1 2 1 1]

/-- Concrete latent scale list for the C3 counterexample: entry 2 has 7
channels. -/
def lcsC3 : List Tensor :=
  [constT 1 16 8 8, constT 1 8 4 4, constT 1 7 2 2, constT 1 16 1 1]

/-- Counterexample to claim C3 as stated: the sequence actually fed to the
second-stage ConvGRU concatenates entry 2 of the LATENT list (7 channels,
giving 7 + 8 = 15 channels per element), not the matching-scale context
tensor (5 channels, which would give 5 + 8 = 13) as the spec's step 1
describes. -/
theorem c3_counterexample :
    ¬ (((Det.Sampler.make 1 16 8 4 Det.zeroW).gru2Input icsC3 lcsC3).map
        (fun l => l.map Tensor.chan)
      = ((Det.Sampler.make 1 16 8 4 Det.zeroW).specGRU2Input icsC3 lcsC3).map
        (fun l => l.map Tensor.chan)) := by
  decide

/-- Claim C4 (amended): it is the DCT variant whose latent input is a single
tensor, batch-expanded by repetition to the context states' batch size and
broadcast across the forecast horizon.  The deterministic variant instead
requires a 4-entry latent list — a call with a single-entry latent list fails
with an out-of-range read — and performs no batch expansion: the first
stage's inputs are entry 3 of the latent list unchanged. -/
theorem spec_c4 :
    (∀ (s : Det.Sampler) (st : BNState) (ics : List Tensor) (t : Tensor),
        s.forward st ics [t] = none) ∧
    (∀ (n lc cc oc : Nat) (wd : Det.Weights) (l0 l1 l2 l3 : Tensor) (lrest : List Tensor),
        (Det.Sampler.make (n + 1) lc cc oc wd).gru1Input (l0 :: l1 :: l2 :: l3 :: lrest)
          = some (List.replicate (n + 1) l3)) ∧
    (∀ (n lc cc oc : Nat) (wc : Dct.Weights) (c0 : Tensor) (crest : List Tensor)
        (lat : Tensor),
        (Dct.Sampler.make (n + 1) lc cc oc wc).gru1Input (c0 :: crest) lat
          = some (List.replicate (n + 1) (lat.repeatBatch c0.batch))) := by
  refine ⟨?_, ?_, ?_⟩
  · intro s st ics t
    exact Det.forward_none_of_hidden1 s st ics [t] (Det.hidden1_none_of_lcs s ics [t] rfl)
  · intro n lc cc oc wd l0 l1 l2 l3 lrest
    rfl
  · intro n lc cc oc wc c0 crest lat
    rfl

/-- Counterexample to claim C4 as stated: in the deterministic variant a
single latent tensor is rejected (the forward call fails), and with context
states of batch size 2 and latent entries of batch size 1 the first stage's
inputs keep batch size 1 — no batch expansion by repetition happens. -/
theorem c4_counterexample :
    ((Det.Sampler.make 1 16 8 4 Det.zeroW).forward st0
        [constT 2 8 8 8, constT 2 4 4 4, constT 2 2 2 2, constT 2 1 1 1]
        [constT 1 16 1 1] = none)
      ∧ ¬ (((Det.Sampler.make 1 16 8 4 Det.zeroW).gru1Input
          [constT 1 16 8 8, constT 1 8 4 4, constT 1 4 2 2, constT 1 16 1 1]).map
          (fun l => l.map Tensor.batch)
        = some [2]) := by
  constructor
  · exact Det.forward_none_of_hidden1 _ _ _ _ (Det.hidden1_none_of_lcs _ _ _ rfl)
  · decide
